import Mathlib

/-!
Shallow embedding of the CHIP-8 interpreter from src/main.rs.

Machine bytes and words are modelled as `Nat` with explicit truncation
(`% 256`, `% 65536`) where the Rust code performs wrapping arithmetic on
`u8`/`u16`.  Rust array indexing is bounds checked at runtime and panics on
an out-of-range index; every such access is modelled by an explicit bound
test whose failure is the `none` branch of an `Option` result.  The one
source of nondeterminism, `rand::random::<u8>()` in the `Cxnn` arm, is
modelled by an oracle argument `rnd` (its low byte plays the role of the
random byte).
-/

/-- The 16-glyph hexadecimal font table `FONT` (src lines 123-140). -/
def FONT : List Nat :=
  [0xF0, 0x90, 0x90, 0x90, 0xF0,
   0x20, 0x60, 0x20, 0x20, 0x70,
   0xF0, 0x10, 0xF0, 0x80, 0xF0,
   0xF0, 0x10, 0xF0, 0x10, 0xF0,
   0x90, 0x90, 0xF0, 0x10, 0x10,
   0xF0, 0x80, 0xF0, 0x10, 0xF0,
   0xF0, 0x80, 0xF0, 0x90, 0xF0,
   0xF0, 0x10, 0x20, 0x40, 0x40,
   0xF0, 0x90, 0xF0, 0x90, 0xF0,
   0xF0, 0x90, 0xF0, 0x10, 0xF0,
   0xF0, 0x90, 0xF0, 0x90, 0x90,
   0xE0, 0x90, 0xE0, 0x90, 0xE0,
   0xF0, 0x80, 0x80, 0x80, 0xF0,
   0xE0, 0x90, 0x90, 0x90, 0xE0,
   0xF0, 0x80, 0xF0, 0x80, 0xF0,
   0xF0, 0x80, 0xF0, 0x80, 0x80]

/-- The machine state (struct `Emulator`, src lines 142-151).  The fixed-size
Rust arrays `mem : [u8; 4096]`, `v : [u8; 16]`, `vmem : [u8; 32*64]` and
`keypad : [bool; 16]` are modelled as total functions; every access the Rust
code performs at a possibly out-of-range index is bounds checked explicitly
at the use site.  The growable `stack : Vec<u16>` is a list whose back is the
top (push appends, pop removes the last element). -/
structure Emulator where
  i : Nat
  pc : Nat
  mem : Nat → Nat
  v : Nat → Nat
  stack : List Nat
  vmem : Nat → Nat
  keypad : Nat → Bool
  dt : Nat

/-- Memory contents produced by `Emulator::new` (src lines 154-167): all
zero except the font copied to 0x50..=0x9f. -/
def initMem : Nat → Nat := fun a =>
  if 0x50 ≤ a ∧ a ≤ 0x9f then FONT.getD (a - 0x50) 0 else 0

/-- `Emulator::new` (src lines 154-168). -/
def Emulator.new : Emulator :=
  { i := 0
    pc := 0x200
    mem := initMem
    v := fun _ => 0
    stack := []
    vmem := fun _ => 0
    keypad := fun _ => false
    dt := 0 }

/-- `Emulator::load_rom` (src lines 170-178): panics (modelled `none`) when
the image exceeds 4096 - 512 bytes, otherwise copies it to 0x200 upward. -/
def loadRom (s : Emulator) (rom : List Nat) : Option Emulator :=
  if 4096 - 512 < rom.length then none
  else some { s with
    mem := rom.enum.foldl (fun m p => Function.update m (0x200 + p.1) p.2) s.mem }

/-- `Emulator::set_key_state` (src lines 190-192); the keypad array has 16
entries, so an index above 15 panics (modelled `none`). -/
def setKeyState (s : Emulator) (key : Nat) (state : Bool) : Option Emulator :=
  if key < 16 then some { s with keypad := Function.update s.keypad key state }
  else none

/-- Delay-timer tick done by the host loop (src lines 113-118). -/
def tickTimer (s : Emulator) : Emulator :=
  if 0 < s.dt then { s with dt := s.dt - 1 } else s

/-- Field `t` of the decoder: `(instr & 0xf000) >> 12` (src line 204). -/
def decT (instr : Nat) : Nat := (instr &&& 0xf000) >>> 12

/-- Field `x` of the decoder: `(instr & 0x0f00) >> 8` (src line 205). -/
def decX (instr : Nat) : Nat := (instr &&& 0x0f00) >>> 8

/-- Field `y` of the decoder: `(instr & 0x00f0) >> 4` (src line 206). -/
def decY (instr : Nat) : Nat := (instr &&& 0x00f0) >>> 4

/-- Field `n` of the decoder: `instr & 0x000f` (src line 207). -/
def decN (instr : Nat) : Nat := instr &&& 0x000f

/-- Field `nn` of the decoder: `instr & 0x00ff` (src line 208). -/
def decNN (instr : Nat) : Nat := instr &&& 0x00ff

/-- Field `nnn` of the decoder: `instr & 0x0fff` (src line 209). -/
def decNNN (instr : Nat) : Nat := instr &&& 0x0fff

/-- Sprite bit extraction `spr_row >> (7 - i) & 0x1` (src line 303). -/
def sprBit (row i2 : Nat) : Nat := (row >>> (7 - i2)) &&& 0x1

/-- Target pixel index `(dx + i) % WIDTH + ((dy + j) % HEIGHT) * 64`
(src lines 305-306). -/
def drawIdx (dx dy j i2 : Nat) : Nat :=
  (dx + i2) % 64 + ((dy + j) % 32) * 64

/-- The inner draw loop of the `Dxyn` arm (src lines 302-311): one sprite
row `row` at row index `j`, acting on the pair of the `VF` register and the
video memory. -/
def drawRow (dx dy row j : Nat) (st : Nat × (Nat → Nat)) : Nat × (Nat → Nat) :=
  (List.range 8).foldl (fun st2 i2 =>
    let v := sprBit row i2
    if v = 1 then
      let idx := drawIdx dx dy j i2
      let ov := st2.2 idx
      (ov, Function.update st2.2 idx (v ^^^ ov))
    else st2) st

/-- The outer draw loop of the `Dxyn` arm (src lines 300-312).  `si` is the
index register, so row `j` of the sprite is `mem (si + j)`. -/
def drawRows (mem : Nat → Nat) (si dx dy n : Nat) (st : Nat × (Nat → Nat)) :
    Nat × (Nat → Nat) :=
  (List.range n).foldl (fun st1 j => drawRow dx dy (mem (si + j)) j st1) st

/-- Linear scan used for `self.keypad.iter().position(|e| *e)` (src line
324): starting at index `off` with `fuel` entries left, return the first
index whose predicate holds. -/
def posAux (p : Nat → Bool) (off : Nat) : Nat → Option Nat
  | 0 => none
  | fuel + 1 => if p off then some off else posAux p (off + 1) fuel

/-- `keypad.iter().position(|e| *e)` over the 16 keypad entries. -/
def findKey (keypad : Nat → Bool) : Option Nat := posAux keypad 0 16

/-- `Emulator::run_instr` (src lines 202-365).  The result is `none` exactly
when the Rust code panics (empty-stack `pop().unwrap()`, or an out-of-range
array index), and otherwise carries the new state together with a flag that
is `true` exactly when the catch-all arm printed its "missing instr"
diagnostic (src lines 359-363). -/
def runInstr (rnd : Nat) (s : Emulator) (instr : Nat) : Option (Emulator × Bool) :=
  let t := decT instr
  let x := decX instr
  let y := decY instr
  let n := decN instr
  let nn := decNN instr
  let nnn := decNNN instr
  let vx := s.v x
  let vy := s.v y
  -- (0x0, 0x0, 0xe, 0x0): clear screen
  if t = 0x0 ∧ x = 0x0 ∧ y = 0xe ∧ n = 0x0 then
    some ({ s with vmem := fun _ => 0 }, false)
  -- (0x0, 0x0, 0xe, 0xe): return from subroutine; pop().unwrap() panics on []
  else if t = 0x0 ∧ x = 0x0 ∧ y = 0xe ∧ n = 0xe then
    match s.stack.getLast? with
    | some a => some ({ s with pc := a, stack := s.stack.dropLast }, false)
    | none => none
  -- (0x1, _, _, _): jump
  else if t = 0x1 then some ({ s with pc := nnn }, false)
  -- (0x2, _, _, _): call subroutine
  else if t = 0x2 then
    some ({ s with stack := s.stack ++ [s.pc], pc := nnn }, false)
  -- (0x3, _, _, _): skip if vx eq
  else if t = 0x3 then
    some ((if vx = nn then { s with pc := s.pc + 2 } else s), false)
  -- (0x4, _, _, _): skip if vx neq
  else if t = 0x4 then
    some ((if vx ≠ nn then { s with pc := s.pc + 2 } else s), false)
  -- (0x5, _, _, _): skip if vx eq vy
  else if t = 0x5 then
    some ((if vx = vy then { s with pc := s.pc + 2 } else s), false)
  -- (0x6, _, _, _): set register vx
  else if t = 0x6 then some ({ s with v := Function.update s.v x nn }, false)
  -- (0x7, _, _, _): add value to vx, wrapping_add on u8
  else if t = 0x7 then
    some ({ s with v := Function.update s.v x ((vx + nn) % 256) }, false)
  -- (0x8, _, _, 0): set vx to vy
  else if t = 0x8 ∧ n = 0x0 then
    some ({ s with v := Function.update s.v x vy }, false)
  -- (0x8, _, _, 1): set vx to vx OR vy
  else if t = 0x8 ∧ n = 0x1 then
    some ({ s with v := Function.update s.v x (vx ||| vy) }, false)
  -- (0x8, _, _, 2): set vx to vx AND vy
  else if t = 0x8 ∧ n = 0x2 then
    some ({ s with v := Function.update s.v x (vx &&& vy) }, false)
  -- (0x8, _, _, 3): set vx to vx XOR vy
  else if t = 0x8 ∧ n = 0x3 then
    some ({ s with v := Function.update s.v x (vx ^^^ vy) }, false)
  -- (0x8, _, _, 4): overflowing_add; v[x] is written first, v[0xf] second
  else if t = 0x8 ∧ n = 0x4 then
    some ({ s with v := Function.update (Function.update s.v x ((vx + vy) % 256))
                      0xf (if 256 ≤ vx + vy then 1 else 0) }, false)
  -- (0x8, _, _, 5): overflowing_sub vx - vy; flag 0 when it wrapped
  else if t = 0x8 ∧ n = 0x5 then
    some ({ s with v := Function.update (Function.update s.v x ((vx + 256 - vy) % 256))
                      0xf (if vx < vy then 0 else 1) }, false)
  -- (0x8, _, _, 7): overflowing_sub vy - vx; flag 0 when it wrapped
  else if t = 0x8 ∧ n = 0x7 then
    some ({ s with v := Function.update (Function.update s.v x ((vy + 256 - vx) % 256))
                      0xf (if vy < vx then 0 else 1) }, false)
  -- (0x8, _, _, 6): v[0xf] gets the low bit of vx, then v[x] = vy >> 1
  else if t = 0x8 ∧ n = 0x6 then
    some ({ s with v := Function.update (Function.update s.v 0xf (vx &&& 0x1))
                      x (vy >>> 1) }, false)
  -- (0x8, _, _, 0xe): v[0xf] gets the high bit of vx, then v[x] = vy << 1 on u8
  else if t = 0x8 ∧ n = 0xe then
    some ({ s with v := Function.update (Function.update s.v 0xf ((vx &&& 0x80) >>> 7))
                      x ((vy <<< 1) % 256) }, false)
  -- (0x9, _, _, _): skip if vx neq vy
  else if t = 0x9 then
    some ((if vx ≠ vy then { s with pc := s.pc + 2 } else s), false)
  -- (0xa, _, _, _): set index register
  else if t = 0xa then some ({ s with i := nnn }, false)
  -- (0xb, _, _, _): jump with offset
  else if t = 0xb then some ({ s with pc := s.v 0x0 + nnn }, false)
  -- (0xc, _, _, _): random byte AND nn
  else if t = 0xc then
    some ({ s with v := Function.update s.v x ((rnd % 256) &&& nn) }, false)
  -- (0xd, _, _, _): draw; the sprite slice mem[i..i+n] panics if i+n > 4096
  else if t = 0xd then
    if s.i + n ≤ 4096 then
      let r := drawRows s.mem s.i (vx &&& 63) (vy &&& 31) n (0, s.vmem)
      some ({ s with v := Function.update s.v 0xf r.1, vmem := r.2 }, false)
    else none
  -- (0xe, _, 0x9, 0xe): skip if key down; keypad[vx] panics if vx > 15
  else if t = 0xe ∧ y = 0x9 ∧ n = 0xe then
    if vx < 16 then
      some ({ s with pc := s.pc + (if s.keypad vx then 2 else 0) }, false)
    else none
  -- (0xe, _, 0xa, 0x1): skip if key up; keypad[vx] panics if vx > 15
  else if t = 0xe ∧ y = 0xa ∧ n = 0x1 then
    if vx < 16 then
      some ({ s with pc := s.pc + (if !s.keypad vx then 2 else 0) }, false)
    else none
  -- (0xf, _, 0x0, 0x7): get dt val
  else if t = 0xf ∧ y = 0x0 ∧ n = 0x7 then
    some ({ s with v := Function.update s.v x s.dt }, false)
  -- (0xf, _, 0x1, 0x5): set dt val
  else if t = 0xf ∧ y = 0x1 ∧ n = 0x5 then some ({ s with dt := vx }, false)
  -- (0xf, _, 0x0, 0xa): get key, else roll the pc back by 2
  else if t = 0xf ∧ y = 0x0 ∧ n = 0xa then
    match findKey s.keypad with
    | some k => some ({ s with v := Function.update s.v x k }, false)
    | none => some ({ s with pc := s.pc - 2 }, false)
  -- (0xf, _, 0x3, 0x3): binary-coded decimal; mem[i], mem[i+1], mem[i+2]
  else if t = 0xf ∧ y = 0x3 ∧ n = 0x3 then
    if s.i + 2 < 4096 then
      some ({ s with mem :=
                Function.update (Function.update (Function.update s.mem
                  s.i (vx / 100)) (s.i + 1) ((vx / 10) % 10)) (s.i + 2) ((vx % 100) % 10) }, false)
    else none
  -- (0xf, _, 0x2, 0x9): font character
  else if t = 0xf ∧ y = 0x2 ∧ n = 0x9 then
    some ({ s with i := (vx &&& 0x0f) + 0x50 }, false)
  -- (0xf, _, 0x5, 0x5): store mem; mem[i+k] for k in 0..=x
  else if t = 0xf ∧ y = 0x5 ∧ n = 0x5 then
    if s.i + x < 4096 then
      let m2 := (List.range (x + 1)).foldl (fun m k => Function.update m (s.i + k) (s.v k)) s.mem
      some ({ s with mem := m2 }, false)
    else none
  -- (0xf, _, 0x6, 0x5): load mem; mem[i+k] for k in 0..=x
  else if t = 0xf ∧ y = 0x6 ∧ n = 0x5 then
    if s.i + x < 4096 then
      let v2 := (List.range (x + 1)).foldl (fun vv k => Function.update vv k (s.mem (s.i + k))) s.v
      some ({ s with v := v2 }, false)
    else none
  -- (0xf, _, 0x1, 0xe): add to i on u16, then the amiga overflow flag
  else if t = 0xf ∧ y = 0x1 ∧ n = 0xe then
    let i2 := (s.i + vx) % 65536
    let vf := if 0x0fff < i2 then Function.update s.v 0xf 1 else s.v
    some ({ s with i := i2, v := vf }, false)
  -- unimplemented instruction: state untouched, diagnostic printed
  else some (s, true)

/-- State part of `run_instr`, forgetting the diagnostic flag. -/
def runSt (rnd : Nat) (s : Emulator) (instr : Nat) : Option Emulator :=
  (runInstr rnd s instr).map Prod.fst

/-- `Emulator::read_word` (src lines 367-369): big-endian word at `addr`;
the indexing panics (modelled `none`) when `addr + 1` is out of the
4096-byte extent. -/
def readWord (mem : Nat → Nat) (addr : Nat) : Option Nat :=
  if addr + 1 < 4096 then some ((mem addr <<< 8) ||| mem (addr + 1)) else none

/-- `Emulator::process` (src lines 194-200): fetch, advance `pc` by 2, then
run the instruction. -/
def process (rnd : Nat) (s : Emulator) : Option (Emulator × Bool) :=
  match readWord s.mem s.pc with
  | some instr => runInstr rnd { s with pc := s.pc + 2 } instr
  | none => none

/-- Iterated `process`, used to state the busy-wait property of `Fx0A`. -/
def processIter (rnd : Nat) (s : Emulator) : Nat → Option Emulator
  | 0 => some s
  | m + 1 =>
    match process rnd s with
    | some r => processIter rnd r.1 m
    | none => none

/-- Catch-all test of the dispatcher: `true` exactly when the word matches
none of the arms of the `match` in `run_instr`, i.e. when the final
"missing instr" arm (src lines 359-363) runs.  Note that the `0x5` and
`0x9` arms of the source accept every low nibble `n`. -/
def unhandled (instr : Nat) : Bool :=
  let t := decT instr
  let x := decX instr
  let y := decY instr
  let n := decN instr
  !((t == 0x0 && x == 0x0 && y == 0xe && n == 0x0) ||
    (t == 0x0 && x == 0x0 && y == 0xe && n == 0xe) ||
    t == 0x1 || t == 0x2 || t == 0x3 || t == 0x4 || t == 0x5 || t == 0x6 || t == 0x7 ||
    (t == 0x8 && (n == 0x0 || n == 0x1 || n == 0x2 || n == 0x3 || n == 0x4 || n == 0x5 ||
      n == 0x7 || n == 0x6 || n == 0xe)) ||
    t == 0x9 || t == 0xa || t == 0xb || t == 0xc || t == 0xd ||
    (t == 0xe && y == 0x9 && n == 0xe) || (t == 0xe && y == 0xa && n == 0x1) ||
    (t == 0xf && y == 0x0 && n == 0x7) || (t == 0xf && y == 0x1 && n == 0x5) ||
    (t == 0xf && y == 0x0 && n == 0xa) || (t == 0xf && y == 0x3 && n == 0x3) ||
    (t == 0xf && y == 0x2 && n == 0x9) || (t == 0xf && y == 0x5 && n == 0x5) ||
    (t == 0xf && y == 0x6 && n == 0x5) || (t == 0xf && y == 0x1 && n == 0xe))

/-- The (row, bit) pairs visited by the two draw loops, in scan order. -/
def drawPairsL (n : Nat) : List (Nat × Nat) :=
  (List.range n).flatMap (fun j => (List.range 8).map (fun i2 => (j, i2)))

/-- One visited pair of the draw loop, abstracted over the sprite-bit
function `B` and the target-index function `I` of the pair. -/
def hitStep (B I : Nat × Nat → Nat) (st : Nat × (Nat → Nat)) (q : Nat × Nat) :
    Nat × (Nat → Nat) :=
  if B q = 1 then (st.2 (I q), Function.update st.2 (I q) (B q ^^^ st.2 (I q)))
  else st

/-- The pairs of the draw scan whose sprite bit is 1, in scan order. -/
def drawScan (mem : Nat → Nat) (si n : Nat) : List (Nat × Nat) :=
  (drawPairsL n).filter (fun q => sprBit (mem (si + q.1)) q.2 == 1)

/-- The draw instruction touches pixel `p`: some row `j < n` and bit
`i2 < 8` has sprite bit 1 and target index `p`, with the origin coordinates
reduced modulo 64 and 32. -/
def hitsPixel (s : Emulator) (x y n p : Nat) : Prop :=
  ∃ j, j < n ∧ ∃ i2, i2 < 8 ∧ sprBit (s.mem (s.i + j)) i2 = 1 ∧
    drawIdx (s.v x % 64) (s.v y % 32) j i2 = p

/-- The font block 0x50-0x9F is intact in the machine state. -/
def fontIntact (s : Emulator) : Prop :=
  ∀ k, k < 80 → s.mem (0x50 + k) = FONT.getD k 0

/-- The executed instruction cannot write into the font block: it is not an
`Fx33`/`Fx55` whose memory write window meets 0x50-0x9F. -/
def fontSafeInstr (s : Emulator) (instr : Nat) : Prop :=
  (decT instr = 0xf ∧ decY instr = 0x3 ∧ decN instr = 0x3 →
    0xa0 ≤ s.i ∨ s.i + 2 < 0x50) ∧
  (decT instr = 0xf ∧ decY instr = 0x5 ∧ decN instr = 0x5 →
    0xa0 ≤ s.i ∨ s.i + decX instr < 0x50)

/-- Witness state for the `Fx1E` overflow case (mirrors the source test
`emulator_instr_add_to_i`). -/
def wC6 : Emulator := { Emulator.new with i := 0xffe, v := Function.update (fun _ => 0) 0 2 }

/-- Witness state for the `00EE` non-empty-stack case. -/
def wC7 : Emulator := { Emulator.new with stack := [0xabc] }

/-- State whose next fetched word is `Fx0A` (bytes 0xf0 0x0a at 0x200). -/
def wC8 : Emulator :=
  { Emulator.new with
    mem := Function.update (Function.update Emulator.new.mem 0x200 0xf0) 0x201 0x0a }

/-- Witness state for the draw claim: sprite row 0b11001100 stored at
0x300, `I = 0x300`, `V0 = 0`, `V1 = 3` (the draw test of the spec). -/
def wC1 : Emulator :=
  { Emulator.new with
    i := 0x300
    mem := Function.update Emulator.new.mem 0x300 0xcc
    v := Function.update (fun _ => 0) 1 3 }

/-- State whose next fetched word is `00E0` (bytes 0x00 0xe0 at 0x200). -/
def wC4 : Emulator :=
  { Emulator.new with
    mem := Function.update (Function.update Emulator.new.mem 0x200 0x00) 0x201 0xe0 }

/-- Same as `wC8` but with key 3 pressed. -/
def wC8k : Emulator := { wC8 with keypad := Function.update (fun _ => false) 3 true }

/-- Claim C2: executing `8xy6` writes the low bit of the pre-instruction
`Vx` to `VF` and then the pre-instruction `Vy` shifted right by 1 to `Vx`;
executing `8xyE` writes the high bit of the pre-instruction `Vx` to `VF`
and then the pre-instruction `Vy` shifted left by 1 (truncated to 8 bits)
to `Vx`.  In both arms the shift source is `Vy`, not `Vx`, and nothing
outside the register file changes. -/
theorem C2_shift_source (rnd : Nat) (s : Emulator) (instr : Nat) (ht : decT instr = 0x8) :
    (decN instr = 0x6 → runSt rnd s instr = some { s with v := Function.update (Function.update s.v 0xf (s.v (decX instr) &&& 0x1)) (decX instr) (s.v (decY instr) >>> 1) }) ∧
    (decN instr = 0xe → runSt rnd s instr = some { s with v := Function.update (Function.update s.v 0xf ((s.v (decX instr) &&& 0x80) >>> 7)) (decX instr) ((s.v (decY instr) <<< 1) % 256) }) := by
  constructor <;> intro hn <;> simp only [runSt, runInstr, ht, hn] <;> norm_num

/-- Witness for C2 at the concrete words 0x8126 and 0x812e on the freshly
constructed machine. -/
theorem C2_shift_source_witness :
    (runSt 0 Emulator.new 0x8126 = some { Emulator.new with v := Function.update (Function.update Emulator.new.v 0xf (Emulator.new.v (decX 0x8126) &&& 0x1)) (decX 0x8126) (Emulator.new.v (decY 0x8126) >>> 1) }) ∧
    (runSt 0 Emulator.new 0x812e = some { Emulator.new with v := Function.update (Function.update Emulator.new.v 0xf ((Emulator.new.v (decX 0x812e) &&& 0x80) >>> 7)) (decX 0x812e) ((Emulator.new.v (decY 0x812e) <<< 1) % 256) }) :=
  ⟨(C2_shift_source 0 Emulator.new 0x8126 (by decide)).1 (by decide),
   (C2_shift_source 0 Emulator.new 0x812e (by decide)).2 (by decide)⟩

/-- Claim C5: the instruction fetch of `step()` is bounds checked against
the 4096-byte memory extent.  With `PC` at or past 4095 the fetch faults
(the bounds check of the array index fails, modelled by the `none` branch)
instead of reading out of the extent; with `PC` below 4095 the fetch reads
the big-endian word at `PC` and execution proceeds. -/
theorem C5_fetch_bounded (rnd : Nat) (s : Emulator) :
    (4095 ≤ s.pc → process rnd s = none) ∧
    (s.pc < 4095 → process rnd s =
      runInstr rnd { s with pc := s.pc + 2 } ((s.mem s.pc <<< 8) ||| s.mem (s.pc + 1))) := by
  constructor <;> intro h <;> simp only [process, readWord]
  · rw [if_neg (by omega)]
  · rw [if_pos (by omega)]

/-- Witness for C5 at `PC = 4095` (fault) and at the fresh machine
(`PC = 0x200`, normal fetch). -/
theorem C5_fetch_bounded_witness :
    (process 0 { Emulator.new with pc := 4095 } = none) ∧
    (process 0 Emulator.new =
      runInstr 0 { Emulator.new with pc := Emulator.new.pc + 2 }
        ((Emulator.new.mem Emulator.new.pc <<< 8) ||| Emulator.new.mem (Emulator.new.pc + 1))) :=
  ⟨(C5_fetch_bounded 0 { Emulator.new with pc := 4095 }).1 (by decide),
   (C5_fetch_bounded 0 Emulator.new).2 (by decide)⟩

/-- Claim C6: `Fx1E` adds `Vx` to the 16-bit register `I`; when the
resulting `I` exceeds 0x0FFF, `VF` is set to 1, otherwise the register file
is left untouched (in particular `VF` keeps its prior value, it is not
zeroed), and no other state component changes. -/
theorem C6_fx1e_add_i (rnd : Nat) (s : Emulator) (instr : Nat)
    (ht : decT instr = 0xf) (hy : decY instr = 0x1) (hn : decN instr = 0xe) :
    ∃ s', runSt rnd s instr = some s' ∧
      s'.i = (s.i + s.v (decX instr)) % 65536 ∧
      s'.v = (if 0x0fff < (s.i + s.v (decX instr)) % 65536 then Function.update s.v 0xf 1 else s.v) ∧
      s'.pc = s.pc ∧ s'.mem = s.mem ∧ s'.stack = s.stack ∧ s'.vmem = s.vmem ∧
      s'.keypad = s.keypad ∧ s'.dt = s.dt := by
  simp only [runSt, runInstr, ht, hy, hn]
  norm_num

/-- Witness for C6: on `wC6` (`I = 0xFFE`, `V0 = 2`) the word 0xF01E runs,
mirroring the source test `emulator_instr_add_to_i`. -/
theorem C6_fx1e_add_i_witness :
    ∃ s', runSt 0 wC6 0xf01e = some s' ∧
      s'.i = (wC6.i + wC6.v (decX 0xf01e)) % 65536 ∧
      s'.v = (if 0x0fff < (wC6.i + wC6.v (decX 0xf01e)) % 65536 then Function.update wC6.v 0xf 1 else wC6.v) ∧
      s'.pc = wC6.pc ∧ s'.mem = wC6.mem ∧ s'.stack = wC6.stack ∧ s'.vmem = wC6.vmem ∧
      s'.keypad = wC6.keypad ∧ s'.dt = wC6.dt :=
  C6_fx1e_add_i 0 wC6 0xf01e (by decide) (by decide) (by decide)

/-- Claim C7: `00EE` errs exactly when the call stack is empty (the
`pop().unwrap()` panic, modelled by the `none` branch, never silently
absorbed); on a non-empty stack it pops the top return address into `PC`,
shortens the stack by one entry, and changes nothing else. -/
theorem C7_ret_underflow (rnd : Nat) (s : Emulator) (instr : Nat)
    (ht : decT instr = 0x0) (hx : decX instr = 0x0) (hy : decY instr = 0xe)
    (hn : decN instr = 0xe) :
    (runSt rnd s instr = none ↔ s.stack = []) ∧
    (∀ l a, s.stack = l ++ [a] →
      runSt rnd s instr = some { s with pc := a, stack := l }) := by
  have hbr : runSt rnd s instr =
      (match s.stack.getLast? with
        | some a => some { s with pc := a, stack := s.stack.dropLast }
        | none => none) := by
    simp only [runSt, runInstr, ht, hx, hy, hn]
    norm_num
    cases s.stack.getLast? <;> simp
  constructor
  · rw [hbr]
    cases hgl : s.stack.getLast? with
    | none =>
      simp only [List.getLast?_eq_none_iff] at hgl
      simp [hgl]
    | some a =>
      simp only [reduceCtorEq, false_iff]
      intro hnil
      rw [hnil] at hgl
      simp at hgl
  · intro l a hst
    rw [hbr, hst]
    simp [List.getLast?_concat, List.dropLast_concat]

/-- Witness for C7: popping `[0xabc]` sets `PC = 0xabc` and empties the
stack; on the fresh machine (empty stack) `00EE` errs. -/
theorem C7_ret_underflow_witness :
    (runSt 0 wC7 0x00ee = some { wC7 with pc := 0xabc, stack := [] }) ∧
    (runSt 0 Emulator.new 0x00ee = none) :=
  ⟨(C7_ret_underflow 0 wC7 0x00ee (by decide) (by decide) (by decide) (by decide)).2
      [] 0xabc rfl,
   (C7_ret_underflow 0 Emulator.new 0x00ee (by decide) (by decide) (by decide)
      (by decide)).1.mpr rfl⟩

/-- Claim C9: when the destination register index `x` is 0xF, the `8xy4`,
`8xy5` and `8xy7` arms write the arithmetic result first and the flag
second, so `VF` ends holding the carry/borrow flag and the result is
discarded; the `8xy6` and `8xyE` arms write the flag first and the shifted
value second, so `VF` ends holding the shifted `Vy` and the flag is
discarded. -/
theorem C9_vf_overlap (rnd : Nat) (s : Emulator) (instr : Nat)
    (ht : decT instr = 0x8) (hx : decX instr = 0xf) :
    (decN instr = 0x4 → runSt rnd s instr = some { s with v := Function.update s.v 0xf (if 256 ≤ s.v 0xf + s.v (decY instr) then 1 else 0) }) ∧
    (decN instr = 0x5 → runSt rnd s instr = some { s with v := Function.update s.v 0xf (if s.v 0xf < s.v (decY instr) then 0 else 1) }) ∧
    (decN instr = 0x7 → runSt rnd s instr = some { s with v := Function.update s.v 0xf (if s.v (decY instr) < s.v 0xf then 0 else 1) }) ∧
    (decN instr = 0x6 → runSt rnd s instr = some { s with v := Function.update s.v 0xf (s.v (decY instr) >>> 1) }) ∧
    (decN instr = 0xe → runSt rnd s instr = some { s with v := Function.update s.v 0xf ((s.v (decY instr) <<< 1) % 256) }) := by
  refine ⟨?_, ?_, ?_, ?_, ?_⟩ <;> intro hn <;>
    simp only [runSt, runInstr, ht, hx, hn] <;> norm_num

/-- Witness for C9 at the concrete words 0x8f14, 0x8f15, 0x8f17, 0x8f16,
0x8f1e on the fresh machine. -/
theorem C9_vf_overlap_witness :
    (runSt 0 Emulator.new 0x8f14 = some { Emulator.new with v := Function.update Emulator.new.v 0xf (if 256 ≤ Emulator.new.v 0xf + Emulator.new.v (decY 0x8f14) then 1 else 0) }) ∧
    (runSt 0 Emulator.new 0x8f15 = some { Emulator.new with v := Function.update Emulator.new.v 0xf (if Emulator.new.v 0xf < Emulator.new.v (decY 0x8f15) then 0 else 1) }) ∧
    (runSt 0 Emulator.new 0x8f16 = some { Emulator.new with v := Function.update Emulator.new.v 0xf (Emulator.new.v (decY 0x8f16) >>> 1) }) :=
  ⟨(C9_vf_overlap 0 Emulator.new 0x8f14 (by decide) (by decide)).1 (by decide),
   (C9_vf_overlap 0 Emulator.new 0x8f15 (by decide) (by decide)).2.1 (by decide),
   (C9_vf_overlap 0 Emulator.new 0x8f16 (by decide) (by decide)).2.2.2.1 (by decide)⟩

/-- Claim C10: the defined opcodes `Ex9E`, `ExA1`, `Dxyn`, `Fx33`, `Fx55`
and `Fx65` perform unguarded array indexing, so `run_instr` can panic from
reachable states: after `6xnn` puts 0xFF in `V0`, the keypad index of
`Ex9E`/`ExA1` is out of range; after `Annn` puts an address near 0x1000 in
`I`, the memory accesses of `Dxyn`, `Fx33`, `Fx55` and `Fx65` run past the
4096-byte extent.  Each part chains two instructions from the fresh machine
and observes the error branch. -/
theorem C10_reachable_oob :
    ((runSt 0 Emulator.new 0x60ff).map (fun s => (runSt 0 s 0xe09e).isNone) = some true) ∧
    ((runSt 0 Emulator.new 0x60ff).map (fun s => (runSt 0 s 0xe0a1).isNone) = some true) ∧
    ((runSt 0 Emulator.new 0xafff).map (fun s => (runSt 0 s 0xd002).isNone) = some true) ∧
    ((runSt 0 Emulator.new 0xaffe).map (fun s => (runSt 0 s 0xf033).isNone) = some true) ∧
    ((runSt 0 Emulator.new 0xafff).map (fun s => (runSt 0 s 0xf155).isNone) = some true) ∧
    ((runSt 0 Emulator.new 0xafff).map (fun s => (runSt 0 s 0xf165).isNone) = some true) := by
  decide

/-- Helper: the linear scan finds nothing when the predicate is false on the
whole window. -/
theorem posAux_eq_none (p : Nat → Bool) :
    ∀ fuel off, (∀ j, off ≤ j → j < off + fuel → p j = false) →
      posAux p off fuel = none := by
  intro fuel
  induction fuel with
  | zero => intro off h; rfl
  | succ m ih =>
    intro off h
    have h0 : p off = false := h off le_rfl (by omega)
    simp only [posAux, h0, Bool.false_eq_true, if_false]
    exact ih (off + 1) (fun j h1 h2 => h j (by omega) (by omega))

/-- Helper: a successful linear scan returns the first index in the window
satisfying the predicate. -/
theorem posAux_eq_some (p : Nat → Bool) :
    ∀ fuel off k, posAux p off fuel = some k →
      off ≤ k ∧ k < off + fuel ∧ p k = true ∧ ∀ j, off ≤ j → j < k → p j = false := by
  intro fuel
  induction fuel with
  | zero => intro off k h; simp [posAux] at h
  | succ m ih =>
    intro off k h
    by_cases h0 : p off
    · simp only [posAux, h0, if_true] at h
      obtain rfl := Option.some.inj h
      exact ⟨le_rfl, by omega, h0, fun j h1 h2 => by omega⟩
    · have h0f : p off = false := by simpa using h0
      simp only [posAux, h0f, Bool.false_eq_true, if_false] at h
      obtain ⟨a1, a2, a3, a4⟩ := ih (off + 1) k h
      refine ⟨by omega, by omega, a3, ?_⟩
      intro j hj1 hj2
      rcases Nat.eq_or_lt_of_le hj1 with rfl | hlt
      · exact h0f
      · exact a4 j (by omega) hj2

/-- Claim C3 (amended): every fetched word that reaches the dispatcher's
catch-all arm is reported as an unimplemented instruction, does not panic,
and leaves the machine unchanged except for `PC`, which has advanced by
exactly 2.  (The claim's reading that `5xyn`/`9xyn` with nonzero `n` are
undefined does not hold of the code: those arms accept every low nibble,
see the counterexample.) -/
theorem C3_unimplemented_skip (rnd : Nat) (s : Emulator) (instr : Nat)
    (hf : readWord s.mem s.pc = some instr) (hu : unhandled instr = true) :
    process rnd s = some ({ s with pc := s.pc + 2 }, true) := by
  have na1 : ¬(decT instr = 0x0 ∧ decX instr = 0x0 ∧ decY instr = 0xe ∧ decN instr = 0x0) := fun ⟨h1, h2, h3, h4⟩ => by simp [unhandled, h1, h2, h3, h4] at hu
  have na2 : ¬(decT instr = 0x0 ∧ decX instr = 0x0 ∧ decY instr = 0xe ∧ decN instr = 0xe) := fun ⟨h1, h2, h3, h4⟩ => by simp [unhandled, h1, h2, h3, h4] at hu
  have na3 : ¬(decT instr = 0x1) := fun h => by simp [unhandled, h] at hu
  have na4 : ¬(decT instr = 0x2) := fun h => by simp [unhandled, h] at hu
  have na5 : ¬(decT instr = 0x3) := fun h => by simp [unhandled, h] at hu
  have na6 : ¬(decT instr = 0x4) := fun h => by simp [unhandled, h] at hu
  have na7 : ¬(decT instr = 0x5) := fun h => by simp [unhandled, h] at hu
  have na8 : ¬(decT instr = 0x6) := fun h => by simp [unhandled, h] at hu
  have na9 : ¬(decT instr = 0x7) := fun h => by simp [unhandled, h] at hu
  have na10 : ¬(decT instr = 0x8 ∧ decN instr = 0x0) := fun ⟨h1, h2⟩ => by simp [unhandled, h1, h2] at hu
  have na11 : ¬(decT instr = 0x8 ∧ decN instr = 0x1) := fun ⟨h1, h2⟩ => by simp [unhandled, h1, h2] at hu
  have na12 : ¬(decT instr = 0x8 ∧ decN instr = 0x2) := fun ⟨h1, h2⟩ => by simp [unhandled, h1, h2] at hu
  have na13 : ¬(decT instr = 0x8 ∧ decN instr = 0x3) := fun ⟨h1, h2⟩ => by simp [unhandled, h1, h2] at hu
  have na14 : ¬(decT instr = 0x8 ∧ decN instr = 0x4) := fun ⟨h1, h2⟩ => by simp [unhandled, h1, h2] at hu
  have na15 : ¬(decT instr = 0x8 ∧ decN instr = 0x5) := fun ⟨h1, h2⟩ => by simp [unhandled, h1, h2] at hu
  have na16 : ¬(decT instr = 0x8 ∧ decN instr = 0x7) := fun ⟨h1, h2⟩ => by simp [unhandled, h1, h2] at hu
  have na17 : ¬(decT instr = 0x8 ∧ decN instr = 0x6) := fun ⟨h1, h2⟩ => by simp [unhandled, h1, h2] at hu
  have na18 : ¬(decT instr = 0x8 ∧ decN instr = 0xe) := fun ⟨h1, h2⟩ => by simp [unhandled, h1, h2] at hu
  have na19 : ¬(decT instr = 0x9) := fun h => by simp [unhandled, h] at hu
  have na20 : ¬(decT instr = 0xa) := fun h => by simp [unhandled, h] at hu
  have na21 : ¬(decT instr = 0xb) := fun h => by simp [unhandled, h] at hu
  have na22 : ¬(decT instr = 0xc) := fun h => by simp [unhandled, h] at hu
  have na23 : ¬(decT instr = 0xd) := fun h => by simp [unhandled, h] at hu
  have na24 : ¬(decT instr = 0xe ∧ decY instr = 0x9 ∧ decN instr = 0xe) := fun ⟨h1, h2, h3⟩ => by simp [unhandled, h1, h2, h3] at hu
  have na25 : ¬(decT instr = 0xe ∧ decY instr = 0xa ∧ decN instr = 0x1) := fun ⟨h1, h2, h3⟩ => by simp [unhandled, h1, h2, h3] at hu
  have na26 : ¬(decT instr = 0xf ∧ decY instr = 0x0 ∧ decN instr = 0x7) := fun ⟨h1, h2, h3⟩ => by simp [unhandled, h1, h2, h3] at hu
  have na27 : ¬(decT instr = 0xf ∧ decY instr = 0x1 ∧ decN instr = 0x5) := fun ⟨h1, h2, h3⟩ => by simp [unhandled, h1, h2, h3] at hu
  have na28 : ¬(decT instr = 0xf ∧ decY instr = 0x0 ∧ decN instr = 0xa) := fun ⟨h1, h2, h3⟩ => by simp [unhandled, h1, h2, h3] at hu
  have na29 : ¬(decT instr = 0xf ∧ decY instr = 0x3 ∧ decN instr = 0x3) := fun ⟨h1, h2, h3⟩ => by simp [unhandled, h1, h2, h3] at hu
  have na30 : ¬(decT instr = 0xf ∧ decY instr = 0x2 ∧ decN instr = 0x9) := fun ⟨h1, h2, h3⟩ => by simp [unhandled, h1, h2, h3] at hu
  have na31 : ¬(decT instr = 0xf ∧ decY instr = 0x5 ∧ decN instr = 0x5) := fun ⟨h1, h2, h3⟩ => by simp [unhandled, h1, h2, h3] at hu
  have na32 : ¬(decT instr = 0xf ∧ decY instr = 0x6 ∧ decN instr = 0x5) := fun ⟨h1, h2, h3⟩ => by simp [unhandled, h1, h2, h3] at hu
  have na33 : ¬(decT instr = 0xf ∧ decY instr = 0x1 ∧ decN instr = 0xe) := fun ⟨h1, h2, h3⟩ => by simp [unhandled, h1, h2, h3] at hu
  simp only [process]
  rw [hf]
  simp only [runInstr]
  rw [if_neg na1,
    if_neg na2,
    if_neg na3,
    if_neg na4,
    if_neg na5,
    if_neg na6,
    if_neg na7,
    if_neg na8,
    if_neg na9,
    if_neg na10,
    if_neg na11,
    if_neg na12,
    if_neg na13,
    if_neg na14,
    if_neg na15,
    if_neg na16,
    if_neg na17,
    if_neg na18,
    if_neg na19,
    if_neg na20,
    if_neg na21,
    if_neg na22,
    if_neg na23,
    if_neg na24,
    if_neg na25,
    if_neg na26,
    if_neg na27,
    if_neg na28,
    if_neg na29,
    if_neg na30,
    if_neg na31,
    if_neg na32,
    if_neg na33]

/-- Witness for C3: the all-zero word on the fresh machine (memory at 0x200
is zero) is reported and only `PC` moves, to 0x202. -/
theorem C3_unimplemented_skip_witness :
    process 0 Emulator.new = some ({ Emulator.new with pc := Emulator.new.pc + 2 }, true) :=
  C3_unimplemented_skip 0 Emulator.new 0 (by decide) (by decide)

/-- Counterexample for C3 as stated: the word 0x5011 has nonzero low nibble
`n = 1`, so by the claim it matches no defined pattern and `step()` should
report it and advance `PC` by exactly 2.  Instead the `0x5` arm accepts any
low nibble: with `V0 = V1` the skip fires, `PC` advances by 4 in total and
no unimplemented-instruction event is reported. -/
theorem C3_counterexample :
    ((loadRom Emulator.new [0x50, 0x11]).bind
      (fun s => (process 0 s).map (fun r => (r.1.pc, r.2))) = some (0x204, false)) ∧
    decN 0x5011 ≠ 0 := by
  decide

/-- Claim C8: executing `Fx0A` via `step()` with no key pressed rolls `PC`
back by 2, so the machine state is entirely unchanged across the step and
the same instruction re-executes for arbitrarily many repetitions; with at
least one key pressed it writes the lowest-indexed pressed key to `Vx` and
leaves `PC` at its already-advanced value. -/
theorem C8_get_key_block (rnd : Nat) (s : Emulator) (instr : Nat)
    (hf : readWord s.mem s.pc = some instr) (ht : decT instr = 0xf)
    (hy : decY instr = 0x0) (hn : decN instr = 0xa) :
    ((∀ k, k < 16 → s.keypad k = false) →
      process rnd s = some (s, false) ∧ ∀ m, processIter rnd s m = some s) ∧
    (∀ k, findKey s.keypad = some k →
      s.keypad k = true ∧ (∀ j, j < k → s.keypad j = false) ∧
      process rnd s = some ({ s with pc := s.pc + 2, v := Function.update s.v (decX instr) k }, false)) := by
  have hbr : process rnd s =
      (match findKey s.keypad with
        | some k => some ({ s with pc := s.pc + 2, v := Function.update s.v (decX instr) k }, false)
        | none => some ({ s with pc := s.pc + 2 - 2 }, false)) := by
    simp only [process]
    rw [hf]
    simp only [runInstr, ht, hy, hn]
    norm_num
  constructor
  · intro hnk
    have hfk : findKey s.keypad = none :=
      posAux_eq_none s.keypad 16 0 (fun j h1 h2 => hnk j (by omega))
    have h2 : s.pc + 2 - 2 = s.pc := by omega
    have hstep : process rnd s = some (s, false) := by
      rw [hbr, hfk, h2]
    refine ⟨hstep, ?_⟩
    intro m
    induction m with
    | zero => rfl
    | succ mm ih =>
      simp only [processIter]
      rw [hstep]
      exact ih
  · intro k hk
    obtain ⟨-, hlt, hp, hmin⟩ := posAux_eq_some s.keypad 16 0 k hk
    refine ⟨hp, fun j hj => hmin j (by omega) hj, ?_⟩
    rw [hbr, hk]

/-- Witness for C8: on `wC8` (next word `Fx0A`, no key pressed) the step is
the identity and stays so under iteration; on `wC8k` (key 3 pressed) `V0`
receives 3 and `PC` stays advanced. -/
theorem C8_get_key_block_witness :
    (process 0 wC8 = some (wC8, false) ∧ ∀ m, processIter 0 wC8 m = some wC8) ∧
    process 0 wC8k = some ({ wC8k with pc := wC8k.pc + 2, v := Function.update wC8k.v (decX 0xf00a) 3 }, false) :=
  ⟨(C8_get_key_block 0 wC8 0xf00a (by decide) (by decide) (by decide) (by decide)).1
      (by decide),
   ((C8_get_key_block 0 wC8k 0xf00a (by decide) (by decide) (by decide) (by decide)).2
      3 (by decide)).2.2⟩

/-- Helper: a left fold of pointwise updates at addresses `base + kk` does
not change the value at an address different from all of them. -/
theorem foldl_update_outside (w : Nat → Nat) (base : Nat) :
    ∀ (L : List Nat) (m : Nat → Nat) (a : Nat), (∀ kk ∈ L, base + kk ≠ a) →
      (L.foldl (fun mm kk => Function.update mm (base + kk) (w kk)) m) a = m a := by
  intro L
  induction L with
  | nil => intro m a h; rfl
  | cons hd tl ih =>
    intro m a h
    simp only [List.foldl_cons]
    rw [ih _ a (fun kk hkk => h kk (List.mem_cons_of_mem hd hkk))]
    exact Function.update_noteq (Ne.symm (h hd (List.mem_cons_self hd tl))) _ _

/-- Helper: the same for the indexed fold used by `load_rom`. -/
theorem foldl_update_enum_outside (base : Nat) :
    ∀ (L : List (Nat × Nat)) (m : Nat → Nat) (a : Nat), (∀ q ∈ L, base + q.1 ≠ a) →
      (L.foldl (fun mm q => Function.update mm (base + q.1) q.2) m) a = m a := by
  intro L
  induction L with
  | nil => intro m a h; rfl
  | cons hd tl ih =>
    intro m a h
    simp only [List.foldl_cons]
    rw [ih _ a (fun q hq => h q (List.mem_cons_of_mem hd hq))]
    exact Function.update_noteq (Ne.symm (h hd (List.mem_cons_self hd tl))) _ _

set_option maxHeartbeats 1600000 in
/-- Helper: `run_instr` preserves the font block provided the executed
instruction is not an `Fx33`/`Fx55` whose write window meets 0x50-0x9F.
The proof walks the dispatch chain arm by arm. -/
theorem fontIntact_runInstr (rnd : Nat) (s : Emulator) (instr : Nat) (s' : Emulator)
    (rep : Bool) (hrun : runInstr rnd s instr = some (s', rep))
    (hsafe : fontSafeInstr s instr) (hfont : fontIntact s) : fontIntact s' := by
  obtain ⟨hs1, hs2⟩ := hsafe
  intro k hk
  have hgoal := hfont k hk
  simp only [runInstr] at hrun
  by_cases c1 : decT instr = 0x0 ∧ decX instr = 0x0 ∧ decY instr = 0xe ∧ decN instr = 0x0
  · rw [if_pos c1] at hrun
    injection hrun with h1
    injection h1 with h2 h3
    subst h2
    exact hgoal
  · rw [if_neg c1] at hrun
    by_cases c2 : decT instr = 0x0 ∧ decX instr = 0x0 ∧ decY instr = 0xe ∧ decN instr = 0xe
    · rw [if_pos c2] at hrun
      split at hrun
      · injection hrun with h1
        injection h1 with h2 h3
        subst h2
        exact hgoal
      · exact absurd hrun (by simp)
    · rw [if_neg c2] at hrun
      by_cases c3 : decT instr = 0x1
      · rw [if_pos c3] at hrun
        injection hrun with h1
        injection h1 with h2 h3
        subst h2
        exact hgoal
      · rw [if_neg c3] at hrun
        by_cases c4 : decT instr = 0x2
        · rw [if_pos c4] at hrun
          injection hrun with h1
          injection h1 with h2 h3
          subst h2
          exact hgoal
        · rw [if_neg c4] at hrun
          by_cases c5 : decT instr = 0x3
          · rw [if_pos c5] at hrun
            injection hrun with h1
            injection h1 with h2 h3
            subst h2
            split <;> exact hgoal
          · rw [if_neg c5] at hrun
            by_cases c6 : decT instr = 0x4
            · rw [if_pos c6] at hrun
              injection hrun with h1
              injection h1 with h2 h3
              subst h2
              split <;> exact hgoal
            · rw [if_neg c6] at hrun
              by_cases c7 : decT instr = 0x5
              · rw [if_pos c7] at hrun
                injection hrun with h1
                injection h1 with h2 h3
                subst h2
                split <;> exact hgoal
              · rw [if_neg c7] at hrun
                by_cases c8 : decT instr = 0x6
                · rw [if_pos c8] at hrun
                  injection hrun with h1
                  injection h1 with h2 h3
                  subst h2
                  exact hgoal
                · rw [if_neg c8] at hrun
                  by_cases c9 : decT instr = 0x7
                  · rw [if_pos c9] at hrun
                    injection hrun with h1
                    injection h1 with h2 h3
                    subst h2
                    exact hgoal
                  · rw [if_neg c9] at hrun
                    by_cases c10 : decT instr = 0x8 ∧ decN instr = 0x0
                    · rw [if_pos c10] at hrun
                      injection hrun with h1
                      injection h1 with h2 h3
                      subst h2
                      exact hgoal
                    · rw [if_neg c10] at hrun
                      by_cases c11 : decT instr = 0x8 ∧ decN instr = 0x1
                      · rw [if_pos c11] at hrun
                        injection hrun with h1
                        injection h1 with h2 h3
                        subst h2
                        exact hgoal
                      · rw [if_neg c11] at hrun
                        by_cases c12 : decT instr = 0x8 ∧ decN instr = 0x2
                        · rw [if_pos c12] at hrun
                          injection hrun with h1
                          injection h1 with h2 h3
                          subst h2
                          exact hgoal
                        · rw [if_neg c12] at hrun
                          by_cases c13 : decT instr = 0x8 ∧ decN instr = 0x3
                          · rw [if_pos c13] at hrun
                            injection hrun with h1
                            injection h1 with h2 h3
                            subst h2
                            exact hgoal
                          · rw [if_neg c13] at hrun
                            by_cases c14 : decT instr = 0x8 ∧ decN instr = 0x4
                            · rw [if_pos c14] at hrun
                              injection hrun with h1
                              injection h1 with h2 h3
                              subst h2
                              exact hgoal
                            · rw [if_neg c14] at hrun
                              by_cases c15 : decT instr = 0x8 ∧ decN instr = 0x5
                              · rw [if_pos c15] at hrun
                                injection hrun with h1
                                injection h1 with h2 h3
                                subst h2
                                exact hgoal
                              · rw [if_neg c15] at hrun
                                by_cases c16 : decT instr = 0x8 ∧ decN instr = 0x7
                                · rw [if_pos c16] at hrun
                                  injection hrun with h1
                                  injection h1 with h2 h3
                                  subst h2
                                  exact hgoal
                                · rw [if_neg c16] at hrun
                                  by_cases c17 : decT instr = 0x8 ∧ decN instr = 0x6
                                  · rw [if_pos c17] at hrun
                                    injection hrun with h1
                                    injection h1 with h2 h3
                                    subst h2
                                    exact hgoal
                                  · rw [if_neg c17] at hrun
                                    by_cases c18 : decT instr = 0x8 ∧ decN instr = 0xe
                                    · rw [if_pos c18] at hrun
                                      injection hrun with h1
                                      injection h1 with h2 h3
                                      subst h2
                                      exact hgoal
                                    · rw [if_neg c18] at hrun
                                      by_cases c19 : decT instr = 0x9
                                      · rw [if_pos c19] at hrun
                                        injection hrun with h1
                                        injection h1 with h2 h3
                                        subst h2
                                        split <;> exact hgoal
                                      · rw [if_neg c19] at hrun
                                        by_cases c20 : decT instr = 0xa
                                        · rw [if_pos c20] at hrun
                                          injection hrun with h1
                                          injection h1 with h2 h3
                                          subst h2
                                          exact hgoal
                                        · rw [if_neg c20] at hrun
                                          by_cases c21 : decT instr = 0xb
                                          · rw [if_pos c21] at hrun
                                            injection hrun with h1
                                            injection h1 with h2 h3
                                            subst h2
                                            exact hgoal
                                          · rw [if_neg c21] at hrun
                                            by_cases c22 : decT instr = 0xc
                                            · rw [if_pos c22] at hrun
                                              injection hrun with h1
                                              injection h1 with h2 h3
                                              subst h2
                                              exact hgoal
                                            · rw [if_neg c22] at hrun
                                              by_cases c23 : decT instr = 0xd
                                              · rw [if_pos c23] at hrun
                                                split at hrun
                                                · injection hrun with h1
                                                  injection h1 with h2 h3
                                                  subst h2
                                                  exact hgoal
                                                · exact absurd hrun (by simp)
                                              · rw [if_neg c23] at hrun
                                                by_cases c24 : decT instr = 0xe ∧ decY instr = 0x9 ∧ decN instr = 0xe
                                                · rw [if_pos c24] at hrun
                                                  split at hrun
                                                  · injection hrun with h1
                                                    injection h1 with h2 h3
                                                    subst h2
                                                    exact hgoal
                                                  · exact absurd hrun (by simp)
                                                · rw [if_neg c24] at hrun
                                                  by_cases c25 : decT instr = 0xe ∧ decY instr = 0xa ∧ decN instr = 0x1
                                                  · rw [if_pos c25] at hrun
                                                    split at hrun
                                                    · injection hrun with h1
                                                      injection h1 with h2 h3
                                                      subst h2
                                                      exact hgoal
                                                    · exact absurd hrun (by simp)
                                                  · rw [if_neg c25] at hrun
                                                    by_cases c26 : decT instr = 0xf ∧ decY instr = 0x0 ∧ decN instr = 0x7
                                                    · rw [if_pos c26] at hrun
                                                      injection hrun with h1
                                                      injection h1 with h2 h3
                                                      subst h2
                                                      exact hgoal
                                                    · rw [if_neg c26] at hrun
                                                      by_cases c27 : decT instr = 0xf ∧ decY instr = 0x1 ∧ decN instr = 0x5
                                                      · rw [if_pos c27] at hrun
                                                        injection hrun with h1
                                                        injection h1 with h2 h3
                                                        subst h2
                                                        exact hgoal
                                                      · rw [if_neg c27] at hrun
                                                        by_cases c28 : decT instr = 0xf ∧ decY instr = 0x0 ∧ decN instr = 0xa
                                                        · rw [if_pos c28] at hrun
                                                          split at hrun
                                                          · injection hrun with h1
                                                            injection h1 with h2 h3
                                                            subst h2
                                                            exact hgoal
                                                          · injection hrun with h1
                                                            injection h1 with h2 h3
                                                            subst h2
                                                            exact hgoal
                                                        · rw [if_neg c28] at hrun
                                                          by_cases c29 : decT instr = 0xf ∧ decY instr = 0x3 ∧ decN instr = 0x3
                                                          · rw [if_pos c29] at hrun
                                                            replace hs1 := hs1 c29
                                                            split at hrun
                                                            · injection hrun with h1
                                                              injection h1 with h2 h3
                                                              subst h2
                                                              dsimp only
                                                              have e3 : (0x50 + k : Nat) ≠ s.i + 2 := by omega
                                                              have e2 : (0x50 + k : Nat) ≠ s.i + 1 := by omega
                                                              have e1 : (0x50 + k : Nat) ≠ s.i := by omega
                                                              rw [Function.update_noteq e3, Function.update_noteq e2, Function.update_noteq e1]
                                                              exact hgoal
                                                            · exact absurd hrun (by simp)
                                                          · rw [if_neg c29] at hrun
                                                            by_cases c30 : decT instr = 0xf ∧ decY instr = 0x2 ∧ decN instr = 0x9
                                                            · rw [if_pos c30] at hrun
                                                              injection hrun with h1
                                                              injection h1 with h2 h3
                                                              subst h2
                                                              exact hgoal
                                                            · rw [if_neg c30] at hrun
                                                              by_cases c31 : decT instr = 0xf ∧ decY instr = 0x5 ∧ decN instr = 0x5
                                                              · rw [if_pos c31] at hrun
                                                                replace hs2 := hs2 c31
                                                                split at hrun
                                                                · injection hrun with h1
                                                                  injection h1 with h2 h3
                                                                  subst h2
                                                                  dsimp only
                                                                  have hout : ∀ kk ∈ List.range (decX instr + 1), s.i + kk ≠ 0x50 + k := by
                                                                    intro kk hkk
                                                                    simp only [List.mem_range] at hkk
                                                                    omega
                                                                  rw [foldl_update_outside s.v s.i (List.range (decX instr + 1)) s.mem (0x50 + k) hout]
                                                                  exact hgoal
                                                                · exact absurd hrun (by simp)
                                                              · rw [if_neg c31] at hrun
                                                                by_cases c32 : decT instr = 0xf ∧ decY instr = 0x6 ∧ decN instr = 0x5
                                                                · rw [if_pos c32] at hrun
                                                                  split at hrun
                                                                  · injection hrun with h1
                                                                    injection h1 with h2 h3
                                                                    subst h2
                                                                    exact hgoal
                                                                  · exact absurd hrun (by simp)
                                                                · rw [if_neg c32] at hrun
                                                                  by_cases c33 : decT instr = 0xf ∧ decY instr = 0x1 ∧ decN instr = 0xe
                                                                  · rw [if_pos c33] at hrun
                                                                    injection hrun with h1
                                                                    injection h1 with h2 h3
                                                                    subst h2
                                                                    exact hgoal
                                                                  · rw [if_neg c33] at hrun
                                                                    injection hrun with h1
                                                                    injection h1 with h2 h3
                                                                    subst h2
                                                                    exact hgoal

/-- Claim C4 (amended): after construction, memory bytes 0x50-0x9F hold the
16-glyph hexadecimal font byte for byte, and the block is preserved by
`load_rom`, `set_key_state`, timer ticks, and every `step()` whose executed
instruction is not an `Fx33`/`Fx55` whose memory write window meets
0x50-0x9F.  (An `Fx33`/`Fx55` pointed into that range does overwrite the
font, see the counterexample, so the unconditional claim fails.) -/
theorem C4_font_block :
    fontIntact Emulator.new ∧
    (∀ s rom s', loadRom s rom = some s' → fontIntact s → fontIntact s') ∧
    (∀ s key b s', setKeyState s key b = some s' → fontIntact s → fontIntact s') ∧
    (∀ s, fontIntact s → fontIntact (tickTimer s)) ∧
    (∀ rnd s s' rep, process rnd s = some (s', rep) →
      (∀ instr, readWord s.mem s.pc = some instr → fontSafeInstr s instr) →
      fontIntact s → fontIntact s') := by
  refine ⟨?_, ?_, ?_, ?_, ?_⟩
  · intro k hk
    show initMem (0x50 + k) = FONT.getD k 0
    simp only [initMem]
    have hc : 0x50 ≤ 0x50 + k ∧ 0x50 + k ≤ 0x9f := by omega
    rw [if_pos hc]
    have he : 0x50 + k - 0x50 = k := by omega
    rw [he]
  · intro s rom s' hl hfont
    unfold loadRom at hl
    split at hl
    · exact absurd hl (by simp)
    · injection hl with h2
      subst h2
      intro k hk
      have hg := hfont k hk
      dsimp only
      rw [foldl_update_enum_outside 0x200 rom.enum s.mem (0x50 + k) (fun q hq => by omega)]
      exact hg
  · intro s key b s' hs hfont
    unfold setKeyState at hs
    split at hs
    · injection hs with h2
      subst h2
      exact hfont
    · exact absurd hs (by simp)
  · intro s hfont
    unfold tickTimer
    split
    · exact hfont
    · exact hfont
  · intro rnd s s' rep hp hsafe hfont
    unfold process at hp
    split at hp
    · rename_i instr hw
      exact fontIntact_runInstr rnd _ instr s' rep hp (hsafe instr hw) hfont
    · exact absurd hp (by simp)

/-- Counterexample for C4 as stated: starting from the fresh machine, load
the two-instruction program `A050 F033` and step twice.  The `Fx33` write
window starts at `I = 0x50`, so memory byte 0x50 — the first font byte,
0xF0 — is overwritten with 0 (the BCD hundreds digit of `V0 = 0`). -/
theorem C4_counterexample :
    ((loadRom Emulator.new [0xa0, 0x50, 0xf0, 0x33]).bind
      (fun s => (process 0 s).bind
        (fun r => (process 0 r.1).map (fun r2 => r2.1.mem 0x50))) = some 0) ∧
    FONT.getD 0 0 = 0xf0 := by
  decide

/-- Witness for C4: a full `step()` of the `00E0` instruction from `wC4`
(which clears the screen) keeps the font block intact. -/
theorem C4_font_block_witness :
    fontIntact { wC4 with pc := wC4.pc + 2, vmem := fun _ => 0 } := by
  have h0 : readWord wC4.mem wC4.pc = some 0xe0 := by decide
  refine C4_font_block.2.2.2.2 0 wC4 _ false ?_ ?_ (by simp only [fontIntact]; decide)
  · show process 0 wC4 = some ({ wC4 with pc := wC4.pc + 2, vmem := fun _ => 0 }, false)
    rfl
  · intro instr hf
    rw [h0] at hf
    obtain rfl := Option.some.inj hf
    simp only [fontSafeInstr]
    decide

/-- Helper: the last element of a list is a member. -/
theorem getLast?_mem_self {α : Type} : ∀ {l : List α} {a : α}, l.getLast? = some a → a ∈ l := by
  intro l
  induction l with
  | nil => intro a h; simp at h
  | cons hd tl ih =>
    intro a h
    cases tl with
    | nil =>
      simp at h
      subst h
      exact List.mem_cons_self hd []
    | cons b l2 =>
      rw [List.getLast?_cons_cons] at h
      exact List.mem_cons_of_mem hd (ih h)

/-- Helper: a hit-step fold over pairs none of which has sprite bit 1 is the
identity. -/
theorem hitStep_foldl_nohit (B I : Nat × Nat → Nat) :
    ∀ (L : List (Nat × Nat)), (∀ q ∈ L, B q ≠ 1) →
      ∀ st, L.foldl (hitStep B I) st = st := by
  intro L
  induction L with
  | nil => intro h st; rfl
  | cons hd tl ih =>
    intro h st
    simp only [List.foldl_cons]
    have h1 : hitStep B I st hd = st := by
      unfold hitStep
      rw [if_neg (h hd (List.mem_cons_self hd tl))]
    rw [h1]
    exact ih (fun q hq => h q (List.mem_cons_of_mem hd hq)) st

/-- Helper: per-pixel characterisation of the hit-step fold.  If the
target indices of the sprite-bit-1 pairs are pairwise distinct, then a
pixel hit by some pair ends XOR-toggled and a pixel hit by no pair is
untouched. -/
theorem hitStep_foldl_vmem (B I : Nat × Nat → Nat) :
    ∀ (L : List (Nat × Nat)) (st : Nat × (Nat → Nat)) (p : Nat),
      ((L.filter (fun q => B q == 1)).map I).Nodup →
      ((∀ q ∈ L, ¬(B q = 1 ∧ I q = p)) → (L.foldl (hitStep B I) st).2 p = st.2 p) ∧
      ((∃ q ∈ L, B q = 1 ∧ I q = p) → (L.foldl (hitStep B I) st).2 p = 1 ^^^ st.2 p) := by
  intro L
  induction L with
  | nil =>
    intro st p hnd
    constructor
    · intro h
      rfl
    · intro h
      simp at h
  | cons hd tl ih =>
    intro st p hnd
    by_cases hb : B hd = 1
    · have hfil : (hd :: tl).filter (fun q => B q == 1) =
          hd :: tl.filter (fun q => B q == 1) :=
        List.filter_cons_of_pos (by simp [hb])
      rw [hfil, List.map_cons, List.nodup_cons] at hnd
      obtain ⟨hnotin, hnd2⟩ := hnd
      have hstep : hitStep B I st hd =
          (st.2 (I hd), Function.update st.2 (I hd) (B hd ^^^ st.2 (I hd))) := by
        unfold hitStep
        rw [if_pos hb]
      by_cases hip : I hd = p
      · subst hip
        have htl : ∀ q ∈ tl, ¬(B q = 1 ∧ I q = I hd) := by
          intro q hq hcon
          exact hnotin (hcon.2 ▸ List.mem_map_of_mem I
            (List.mem_filter.mpr ⟨hq, by simp [hcon.1]⟩))
        have hres : ((hd :: tl).foldl (hitStep B I) st).2 (I hd) = 1 ^^^ st.2 (I hd) := by
          simp only [List.foldl_cons]
          rw [hstep]
          rw [(ih (st.2 (I hd), Function.update st.2 (I hd) (B hd ^^^ st.2 (I hd)))
            (I hd) hnd2).1 htl]
          simp [Function.update_same, hb]
        constructor
        · intro hno
          exact absurd ⟨hb, rfl⟩ (hno hd (List.mem_cons_self hd tl))
        · intro _
          exact hres
      · have h2q : (hitStep B I st hd).2 p = st.2 p := by
          rw [hstep]
          exact Function.update_noteq (fun he => hip he.symm) _ _
        have ihst := ih (hitStep B I st hd) p hnd2
        constructor
        · intro hno
          simp only [List.foldl_cons]
          rw [ihst.1 (fun q hq => hno q (List.mem_cons_of_mem _ hq)), h2q]
        · intro hex
          obtain ⟨q, hq, hq1, hq2⟩ := hex
          rcases List.mem_cons.mp hq with rfl | hqtl
          · exact absurd hq2 hip
          · simp only [List.foldl_cons]
            rw [ihst.2 ⟨q, hqtl, hq1, hq2⟩, h2q]
    · have hfil : (hd :: tl).filter (fun q => B q == 1) =
          tl.filter (fun q => B q == 1) :=
        List.filter_cons_of_neg (by simp [hb])
      rw [hfil] at hnd
      have hstep : hitStep B I st hd = st := by
        unfold hitStep
        rw [if_neg hb]
      have ihst := ih st p hnd
      constructor
      · intro hno
        simp only [List.foldl_cons]
        rw [hstep]
        exact ihst.1 (fun q hq => hno q (List.mem_cons_of_mem _ hq))
      · intro hex
        obtain ⟨q, hq, hq1, hq2⟩ := hex
        rcases List.mem_cons.mp hq with rfl | hqtl
        · exact absurd hq1 hb
        · simp only [List.foldl_cons]
          rw [hstep]
          exact ihst.2 ⟨q, hqtl, hq1, hq2⟩

/-- Helper: the `VF` component of the hit-step fold is the prior value of
the last sprite-bit-1 pixel in scan order, or the initial component when no
pair has sprite bit 1. -/
theorem hitStep_foldl_vf (B I : Nat × Nat → Nat) :
    ∀ (L : List (Nat × Nat)) (st : Nat × (Nat → Nat)),
      ((L.filter (fun q => B q == 1)).map I).Nodup →
      (L.foldl (hitStep B I) st).1 =
        (match (L.filter (fun q => B q == 1)).getLast? with
          | none => st.1
          | some q => st.2 (I q)) := by
  intro L
  induction L with
  | nil => intro st hnd; rfl
  | cons hd tl ih =>
    intro st hnd
    by_cases hb : B hd = 1
    · have hfil : (hd :: tl).filter (fun q => B q == 1) =
          hd :: tl.filter (fun q => B q == 1) :=
        List.filter_cons_of_pos (by simp [hb])
      rw [hfil] at hnd ⊢
      rw [List.map_cons, List.nodup_cons] at hnd
      obtain ⟨hnotin, hnd2⟩ := hnd
      have hstep : hitStep B I st hd =
          (st.2 (I hd), Function.update st.2 (I hd) (B hd ^^^ st.2 (I hd))) := by
        unfold hitStep
        rw [if_pos hb]
      simp only [List.foldl_cons]
      rw [hstep]
      rcases hft : tl.filter (fun q => B q == 1) with _ | ⟨q0, rest⟩
      · have hnone : ∀ q ∈ tl, B q ≠ 1 := by
          intro q hq hq1
          have hmem : q ∈ tl.filter (fun q => B q == 1) :=
            List.mem_filter.mpr ⟨hq, by simp [hq1]⟩
          rw [hft] at hmem
          simp at hmem
        rw [hitStep_foldl_nohit B I tl hnone]
        rfl
      · rw [ih _ hnd2, hft, List.getLast?_cons_cons]
        rcases hgl : (q0 :: rest).getLast? with _ | qL
        · simp at hgl
        · have hqL : qL ∈ tl.filter (fun q => B q == 1) := by
            rw [hft]
            exact getLast?_mem_self hgl
          have hne : I qL ≠ I hd := by
            intro he
            exact hnotin (he ▸ List.mem_map_of_mem I hqL)
          show Function.update st.2 (I hd) (B hd ^^^ st.2 (I hd)) (I qL) = st.2 (I qL)
          exact Function.update_noteq hne _ _
    · have hfil : (hd :: tl).filter (fun q => B q == 1) =
          tl.filter (fun q => B q == 1) :=
        List.filter_cons_of_neg (by simp [hb])
      rw [hfil] at hnd ⊢
      have hstep : hitStep B I st hd = st := by
        unfold hitStep
        rw [if_neg hb]
      simp only [List.foldl_cons]
      rw [hstep]
      exact ih st hnd

/-- Helper: membership in the scan-order pair list. -/
theorem mem_drawPairsL {n : Nat} {q : Nat × Nat} :
    q ∈ drawPairsL n ↔ q.1 < n ∧ q.2 < 8 := by
  constructor
  · intro h
    simp only [drawPairsL, List.mem_flatMap, List.mem_map, List.mem_range] at h
    obtain ⟨j, hj, i2, hi2, rfl⟩ := h
    exact ⟨hj, hi2⟩
  · intro h
    simp only [drawPairsL, List.mem_flatMap, List.mem_map, List.mem_range]
    exact ⟨q.1, h.1, q.2, h.2, rfl⟩

/-- Helper: the scan-order pair list has no duplicates. -/
theorem drawPairsL_nodup (n : Nat) : (drawPairsL n).Nodup := by
  simp only [drawPairsL]
  rw [List.nodup_flatMap]
  constructor
  · intro j hj
    exact List.Nodup.map_on
      (fun a _ b _ h => by simpa using congrArg Prod.snd h)
      (List.nodup_range 8)
  · refine List.Pairwise.imp ?_ (List.pairwise_lt_range n)
    intro a b hab q hqa hqb
    simp only [List.mem_map, List.mem_range] at hqa hqb
    obtain ⟨i1, hi1, rfl⟩ := hqa
    obtain ⟨i2, hi2, heq⟩ := hqb
    have : b = a := congrArg Prod.fst heq
    omega

/-- Helper: the nested draw loops equal the flat hit-step fold over the
scan-order pair list. -/
theorem drawRows_eq_foldl (mem : Nat → Nat) (si dx dy : Nat) :
    ∀ (n : Nat) (st : Nat × (Nat → Nat)),
      drawRows mem si dx dy n st =
        (drawPairsL n).foldl
          (hitStep (fun q => sprBit (mem (si + q.1)) q.2)
            (fun q => drawIdx dx dy q.1 q.2)) st := by
  intro n
  induction n with
  | zero => intro st; rfl
  | succ m ih =>
    intro st
    have h1 : drawRows mem si dx dy (m + 1) st =
        drawRow dx dy (mem (si + m)) m (drawRows mem si dx dy m st) := by
      unfold drawRows
      rw [List.range_succ, List.foldl_append]
      simp only [List.foldl_cons, List.foldl_nil]
    have h2 : drawPairsL (m + 1) =
        drawPairsL m ++ (List.range 8).map (fun i2 => (m, i2)) := by
      unfold drawPairsL
      rw [List.range_succ, List.flatMap_append]
      simp
    rw [h1, ih, h2, List.foldl_append, List.foldl_map]
    rfl

/-- Claim C1: executing `Dxyn` (sprite height `n` in 1-15, sprite slice in
bounds) first resets `VF` to 0 and then, for each sprite row `j < n` and
bit `i < 8` taken most-significant first, updates exactly the pixels whose
sprite bit is 1: the target index is `((Vx mod 64)+i) mod 64 + (((Vy mod
32)+j) mod 32)*64` (wrapping, not clipping), the pixel becomes the XOR of
the sprite bit with its prior value, and `VF` ends as the prior value of
the last sprite-bit-1 pixel in scan order (0 when there is none, each write
having unconditionally overwritten `VF` with the prior pixel value).
Pixels whose sprite bit is 0 — and every other state component — are
untouched. -/
theorem C1_draw_xor (rnd : Nat) (s : Emulator) (instr : Nat)
    (ht : decT instr = 0xd) (hn1 : 1 ≤ decN instr) (hn15 : decN instr ≤ 15)
    (hbound : s.i + decN instr ≤ 4096) :
    ∃ s', runSt rnd s instr = some s' ∧
      (∀ p, (hitsPixel s (decX instr) (decY instr) (decN instr) p → s'.vmem p = 1 ^^^ s.vmem p) ∧
        (¬ hitsPixel s (decX instr) (decY instr) (decN instr) p → s'.vmem p = s.vmem p)) ∧
      s'.v = Function.update s.v 0xf (match (drawScan s.mem s.i (decN instr)).getLast? with | none => 0 | some q => s.vmem (drawIdx (s.v (decX instr) % 64) (s.v (decY instr) % 32) q.1 q.2)) ∧
      s'.i = s.i ∧ s'.pc = s.pc ∧ s'.mem = s.mem ∧ s'.stack = s.stack ∧
      s'.keypad = s.keypad ∧ s'.dt = s.dt := by
  have h63 : s.v (decX instr) &&& 63 = s.v (decX instr) % 64 := by
    have h := Nat.and_pow_two_sub_one_eq_mod (s.v (decX instr)) 6
    norm_num at h
    exact h
  have h31 : s.v (decY instr) &&& 31 = s.v (decY instr) % 32 := by
    have h := Nat.and_pow_two_sub_one_eq_mod (s.v (decY instr)) 5
    norm_num at h
    exact h
  have hrun : runSt rnd s instr = some { s with v := Function.update s.v 0xf (drawRows s.mem s.i (s.v (decX instr) &&& 63) (s.v (decY instr) &&& 31) (decN instr) (0, s.vmem)).1, vmem := (drawRows s.mem s.i (s.v (decX instr) &&& 63) (s.v (decY instr) &&& 31) (decN instr) (0, s.vmem)).2 } := by
    simp only [runSt, runInstr, ht]
    norm_num [hbound]
  have hful : ((drawPairsL (decN instr)).map
      (fun q => drawIdx (s.v (decX instr) &&& 63) (s.v (decY instr) &&& 31) q.1 q.2)).Nodup := by
    refine List.Nodup.map_on ?_ (drawPairsL_nodup (decN instr))
    intro q hq q2 hq2 he
    have b1 := mem_drawPairsL.mp hq
    have b2 := mem_drawPairsL.mp hq2
    simp only [drawIdx] at he
    have hqe : q.1 = q2.1 ∧ q.2 = q2.2 := by omega
    exact Prod.ext hqe.1 hqe.2
  have hnod : (((drawPairsL (decN instr)).filter
      (fun q => sprBit (s.mem (s.i + q.1)) q.2 == 1)).map
      (fun q => drawIdx (s.v (decX instr) &&& 63) (s.v (decY instr) &&& 31) q.1 q.2)).Nodup :=
    List.Nodup.sublist (List.Sublist.map _ (List.filter_sublist _)) hful
  have hflat := drawRows_eq_foldl s.mem s.i (s.v (decX instr) &&& 63)
    (s.v (decY instr) &&& 31) (decN instr) (0, s.vmem)
  have hchar := hitStep_foldl_vmem (fun q => sprBit (s.mem (s.i + q.1)) q.2)
    (fun q => drawIdx (s.v (decX instr) &&& 63) (s.v (decY instr) &&& 31) q.1 q.2)
    (drawPairsL (decN instr)) (0, s.vmem)
  have hvf := hitStep_foldl_vf (fun q => sprBit (s.mem (s.i + q.1)) q.2)
    (fun q => drawIdx (s.v (decX instr) &&& 63) (s.v (decY instr) &&& 31) q.1 q.2)
    (drawPairsL (decN instr)) (0, s.vmem) hnod
  refine ⟨_, hrun, ?_, ?_, rfl, rfl, rfl, rfl, rfl, rfl⟩
  · intro p
    constructor
    · intro hp
      obtain ⟨j, hj, i2, hi2, hbit, hidx⟩ := hp
      show (drawRows s.mem s.i (s.v (decX instr) &&& 63) (s.v (decY instr) &&& 31)
        (decN instr) (0, s.vmem)).2 p = 1 ^^^ s.vmem p
      rw [hflat]
      exact (hchar p hnod).2 ⟨(j, i2), mem_drawPairsL.mpr ⟨hj, hi2⟩, hbit,
        by rw [h63, h31]; exact hidx⟩
    · intro hnp
      show (drawRows s.mem s.i (s.v (decX instr) &&& 63) (s.v (decY instr) &&& 31)
        (decN instr) (0, s.vmem)).2 p = s.vmem p
      rw [hflat]
      refine (hchar p hnod).1 ?_
      intro q hq hcon
      apply hnp
      obtain ⟨hql, hqr⟩ := mem_drawPairsL.mp hq
      refine ⟨q.1, hql, q.2, hqr, hcon.1, ?_⟩
      have h2 := hcon.2
      rw [h63, h31] at h2
      exact h2
  · show Function.update s.v 0xf (drawRows s.mem s.i (s.v (decX instr) &&& 63)
      (s.v (decY instr) &&& 31) (decN instr) (0, s.vmem)).1 =
      Function.update s.v 0xf (match (drawScan s.mem s.i (decN instr)).getLast? with | none => 0 | some q => s.vmem (drawIdx (s.v (decX instr) % 64) (s.v (decY instr) % 32) q.1 q.2))
    refine congrArg (fun z => Function.update s.v 0xf z) ?_
    rw [hflat, hvf, ← h63, ← h31]
    rfl

/-- Witness for C1 at the word 0xD011 (draw the one-row sprite 0b11001100
at origin `(V0, V1) = (0, 3)`) on `wC1`. -/
theorem C1_draw_xor_witness :
    ∃ s', runSt 0 wC1 0xd011 = some s' ∧
      (∀ p, (hitsPixel wC1 (decX 0xd011) (decY 0xd011) (decN 0xd011) p → s'.vmem p = 1 ^^^ wC1.vmem p) ∧
        (¬ hitsPixel wC1 (decX 0xd011) (decY 0xd011) (decN 0xd011) p → s'.vmem p = wC1.vmem p)) ∧
      s'.v = Function.update wC1.v 0xf (match (drawScan wC1.mem wC1.i (decN 0xd011)).getLast? with | none => 0 | some q => wC1.vmem (drawIdx (wC1.v (decX 0xd011) % 64) (wC1.v (decY 0xd011) % 32) q.1 q.2)) ∧
      s'.i = wC1.i ∧ s'.pc = wC1.pc ∧ s'.mem = wC1.mem ∧ s'.stack = wC1.stack ∧
      s'.keypad = wC1.keypad ∧ s'.dt = wC1.dt :=
  C1_draw_xor 0 wC1 0xd011 (by decide) (by decide) (by decide) (by decide)
